import Mathlib

/-!
Verification of the dataflow-extraction and feature-assembly pipeline of
`Transformer/run.py`: the graph pruner inside `extract_dataflow`
(lines 90-101), the control flow of `extract_dataflow` itself
(lines 68-104), and `convert_examples_to_features` (lines 127-154).
External capabilities (the comment stripper, the tree-sitter parse plus
token extraction, the per-language DFG function, and the subword
tokenizer) are abstracted as deterministic functions; raising an
exception is modelled as returning `none`.
-/

/-- A dataflow edge as the tuple emitted by the per-language DFG
functions: `(code, target_index, rel, source_code, source_indices)`.
In `run.py`, `d[1]` is the target index and `d[-1]` the list of source
indices. -/
structure DataflowEdge where
  code : String
  target_index : Nat
  rel : String
  source_code : List String
  source_indices : List Nat
deriving DecidableEq

/-- Comparison on the sort key `x[1]` (the target index). -/
def leTarget (a b : DataflowEdge) : Bool :=
  decide (a.target_index ≤ b.target_index)

/-- Line 90, `DFG = sorted(DFG, key=lambda x: x[1])`: Python `sorted` is a
stable sort, modelled by `List.mergeSort` on the target index. -/
def sortDFG (DFG : List DataflowEdge) : List DataflowEdge :=
  DFG.mergeSort leTarget

/-- One iteration of the loop at lines 92-96 building `indexs`: when
`len(d[-1]) != 0` add `d[1]`, then add every element of `d[-1]`.  The
Python set is modelled as a duplicate-free list, `set.add` as
`List.insert`. -/
def addIndexs (s : List Nat) (d : DataflowEdge) : List Nat :=
  d.source_indices.foldl (fun s x => s.insert x)
    (if d.source_indices.length ≠ 0 then s.insert d.target_index else s)

/-- The `indexs` set of lines 91-96, built over an edge list. -/
def indexsOf (DFG : List DataflowEdge) : List Nat :=
  DFG.foldl addIndexs []

/-- The pruning step of `extract_dataflow`, lines 90-101: sort the raw
edges by target index, build `indexs` from the sorted list, and keep
exactly the sorted edges whose target index lies in `indexs`. -/
def pruneDFG (DFG : List DataflowEdge) : List DataflowEdge :=
  let sorted := sortDFG DFG
  let indexs := indexsOf sorted
  sorted.filter (fun d => decide (d.target_index ∈ indexs))

/-- The observable outcome of the Python exception that escapes
`extract_dataflow`: reading the local `code_tokens` before any assignment
raises `UnboundLocalError`. -/
inductive PyError where
  | unboundLocal
deriving DecidableEq

/-- Lines 70-76 of `extract_dataflow`: best-effort comment stripping
(`try: code = remove_comments_and_docstrings(code, lang) except: pass`,
so on failure the original `code` is kept), followed by unconditional
`"<?php" + code + "?>"` wrapping when `lang == "php"`.  The stripper is
abstracted as `strip`, with `none` modelling a raised exception. -/
def preprocess (strip : String → Option String) (lang code : String) : String :=
  let code :=
    match strip code with
    | some stripped => stripped
    | none => code
  if lang = "php" then "<?php" ++ code ++ "?>" else code

/-- Shallow embedding of `extract_dataflow` (run.py lines 68-104).
`tokenize` models the parse plus `tree_to_token_index` plus
`index_to_code_token` steps as one deterministic function of the
preprocessed source, with `none` modelling an exception raised before the
local `code_tokens` is assigned; in that case the outer `except` only
sets `dfg = []` and the trailing `return code_tokens, dfg` raises
`UnboundLocalError`.  `dfg_of` models the per-language DFG function, with
`none` modelling the exception that the inner `except` turns into
`DFG = []`. -/
def extract_dataflow (strip : String → Option String)
    (tokenize : String → Option (List String))
    (dfg_of : String → Option (List DataflowEdge))
    (lang code : String) : Except PyError (List String × List DataflowEdge) :=
  let code := preprocess strip lang code
  match tokenize code with
  | none => Except.error PyError.unboundLocal
  | some code_tokens =>
    let DFG := (dfg_of code).getD []
    Except.ok (code_tokens, pruneDFG DFG)

/-- Python list slicing `l[:n]` for an `int` bound `n`: a nonnegative
bound takes the first `n` elements (clamped to the length), a negative
bound drops the last `-n` elements (clamped to the empty list). -/
def pyTake {α : Type} (n : Int) (l : List α) : List α :=
  if 0 ≤ n then l.take n.toNat else l.take (l.length - (-n).toNat)

/-- The subword tokenizer capability used by
`convert_examples_to_features`: `tokenize`, `convert_tokens_to_ids`
(assumed to map each piece to exactly one id, so modelled per piece by
`convert_token_to_id`), and the `cls`/`sep`/`pad` designated tokens. -/
structure Tokenizer where
  tokenize : String → List String
  convert_token_to_id : String → Nat
  cls_token : String
  sep_token : String
  pad_token_id : Nat

/-- The fields of one input JSON record that
`convert_examples_to_features` reads. -/
structure Record where
  original_string : String
  docstring_tokens : List String
  url : String
deriving DecidableEq

/-- The `InputFeatures` object of run.py lines 107-124; the two teacher
fields are always initialised to `None`. -/
structure InputFeatures where
  code_tokens : List String
  code_ids : List Nat
  nl_tokens : List String
  nl_ids : List Nat
  url : String
  teacher_code_ids : Option (List Nat)
  teacher_nl_ids : Option (List Nat)
deriving DecidableEq

/-- Shallow embedding of `convert_examples_to_features`
(run.py lines 127-154).  `extract` stands for
`extract_dataflow(·, parsers[args.lang], args.lang)`, already applied to
the fixed parser and language, and a raised exception propagates. -/
def convert_examples_to_features
    (extract : String → Except PyError (List String × List DataflowEdge))
    (tokenizer : Tokenizer) (code_length nl_length : Int)
    (js : Record) : Except PyError InputFeatures :=
  match extract js.original_string with
  | Except.error e => Except.error e
  | Except.ok (code_tokens0, _dfg) =>
    let code_tokens1 := code_tokens0.enum.map (fun p =>
      if p.1 ≠ 0 then (tokenizer.tokenize ("@ " ++ p.2)).drop 1
      else tokenizer.tokenize p.2)
    let code_tokens2 := code_tokens1.flatten
    let code_tokens3 := pyTake (code_length - 2) code_tokens2
    let code_tokens := [tokenizer.cls_token] ++ code_tokens3 ++ [tokenizer.sep_token]
    let code_ids0 := code_tokens.map tokenizer.convert_token_to_id
    let padding_length := code_length - code_ids0.length
    let code_ids := code_ids0 ++ List.replicate padding_length.toNat tokenizer.pad_token_id
    let nl := " ".intercalate js.docstring_tokens
    let nl_tokens3 := pyTake (nl_length - 2) (tokenizer.tokenize nl)
    let nl_tokens := [tokenizer.cls_token] ++ nl_tokens3 ++ [tokenizer.sep_token]
    let nl_ids0 := nl_tokens.map tokenizer.convert_token_to_id
    let nl_padding := nl_length - nl_ids0.length
    let nl_ids := nl_ids0 ++ List.replicate nl_padding.toNat tokenizer.pad_token_id
    Except.ok ⟨code_tokens, code_ids, nl_tokens, nl_ids, js.url, none, none⟩

/-- A concrete extraction function used to instantiate theorems on
closed inputs: every source maps to an empty token list and empty
graph. -/
def extract0 : String → Except PyError (List String × List DataflowEdge) :=
  fun _ => Except.ok ([], [])

/-- A concrete tokenizer used to instantiate theorems on closed inputs:
every text maps to no subword pieces, every piece to id 0. -/
def tokenizer0 : Tokenizer :=
  ⟨fun _ => [], fun _ => 0, "<s>", "</s>", 1⟩

/-- A concrete input record used to instantiate theorems on closed
inputs. -/
def js0 : Record := ⟨"", [], "u"⟩

/-- A concrete extraction function whose token list is the whole source
and whose graph is empty. -/
def extractA : String → Except PyError (List String × List DataflowEdge) :=
  fun s => Except.ok ([s], [])

/-- A concrete extraction function with the same token list as
`extractA` but a different (non-empty) pruned edge list. -/
def extractB : String → Except PyError (List String × List DataflowEdge) :=
  fun s => Except.ok ([s], [⟨"x", 5, "comesFrom", ["y"], [3]⟩])

/-- Two concrete records sharing `original_string` but differing in
`docstring_tokens` and `url`. -/
def recA : Record := ⟨"x", ["a"], "u1"⟩

/-- See `recA`. -/
def recB : Record := ⟨"x", ["b"], "u2"⟩

/-- A concrete raw edge list: an edge on target 5 with non-empty sources
next to an empty-source edge on the same target 5, while 5 never occurs
inside any source list. -/
def dfgC4 : List DataflowEdge :=
  [⟨"x", 5, "computedFrom", ["y"], [3]⟩, ⟨"x", 5, "comesFrom", [], []⟩]

/-- A concrete raw edge list where the empty-source definition of `x` at
index 5 is referenced by the later edge for `y` at index 7. -/
def dfgW : List DataflowEdge :=
  [⟨"x", 5, "comesFrom", [], []⟩, ⟨"y", 7, "computedFrom", ["x"], [5]⟩]

theorem mem_foldl_insert (l : List Nat) (s : List Nat) (i : Nat) :
    i ∈ l.foldl (fun s x => s.insert x) s ↔ i ∈ s ∨ i ∈ l := by
  induction l generalizing s with
  | nil => simp
  | cons a l ih =>
    simp only [List.foldl_cons, ih, List.mem_insert_iff, List.mem_cons]
    tauto

theorem mem_addIndexs (s : List Nat) (d : DataflowEdge) (i : Nat) :
    i ∈ addIndexs s d ↔
      i ∈ s ∨ (d.source_indices ≠ [] ∧ d.target_index = i) ∨ i ∈ d.source_indices := by
  unfold addIndexs
  rw [mem_foldl_insert]
  by_cases h : d.source_indices = []
  · simp [h]
  · have hlen : d.source_indices.length ≠ 0 := by
      simpa [List.length_eq_zero] using h
    simp only [hlen, if_pos, List.mem_insert_iff, h, ne_eq, not_false_iff, true_and]
    constructor
    · rintro ((rfl | hs) | hl)
      · exact Or.inr (Or.inl rfl)
      · exact Or.inl hs
      · exact Or.inr (Or.inr hl)
    · rintro (hs | rfl | hl)
      · exact Or.inl (Or.inr hs)
      · exact Or.inl (Or.inl rfl)
      · exact Or.inr hl

theorem mem_foldl_addIndexs (DFG : List DataflowEdge) (s : List Nat) (i : Nat) :
    i ∈ DFG.foldl addIndexs s ↔
      i ∈ s ∨ ∃ d ∈ DFG, (d.source_indices ≠ [] ∧ d.target_index = i) ∨ i ∈ d.source_indices := by
  induction DFG generalizing s with
  | nil => simp
  | cons a l ih =>
    simp only [List.foldl_cons, ih, mem_addIndexs, List.mem_cons]
    constructor
    · rintro (((hs | ha) | ⟨d, hd, hp⟩))
      · exact Or.inl hs
      · exact Or.inr ⟨a, Or.inl rfl, ha⟩
      · exact Or.inr ⟨d, Or.inr hd, hp⟩
    · rintro (hs | ⟨d, (rfl | hd), hp⟩)
      · exact Or.inl (Or.inl hs)
      · exact Or.inl (Or.inr hp)
      · exact Or.inr ⟨d, hd, hp⟩

/-- Membership in the `indexs` set of lines 91-96: exactly the indices
appearing as the target of an edge with non-empty sources, or inside some
source list of some edge. -/
theorem mem_indexsOf (DFG : List DataflowEdge) (i : Nat) :
    i ∈ indexsOf DFG ↔
      ∃ d ∈ DFG, (d.source_indices ≠ [] ∧ d.target_index = i) ∨ i ∈ d.source_indices := by
  unfold indexsOf
  rw [mem_foldl_addIndexs]
  simp

theorem sortDFG_perm (DFG : List DataflowEdge) : List.Perm (sortDFG DFG) DFG :=
  List.mergeSort_perm DFG _

theorem mem_sortDFG (DFG : List DataflowEdge) (d : DataflowEdge) :
    d ∈ sortDFG DFG ↔ d ∈ DFG :=
  List.mem_mergeSort

theorem mem_indexsOf_sortDFG (DFG : List DataflowEdge) (i : Nat) :
    i ∈ indexsOf (sortDFG DFG) ↔ i ∈ indexsOf DFG := by
  rw [mem_indexsOf, mem_indexsOf]
  constructor
  · rintro ⟨d, hd, hp⟩
    exact ⟨d, (mem_sortDFG DFG d).1 hd, hp⟩
  · rintro ⟨d, hd, hp⟩
    exact ⟨d, (mem_sortDFG DFG d).2 hd, hp⟩

/-- Membership characterisation of the pruner output. -/
theorem mem_pruneDFG (DFG : List DataflowEdge) (d : DataflowEdge) :
    d ∈ pruneDFG DFG ↔ d ∈ DFG ∧ d.target_index ∈ indexsOf DFG := by
  unfold pruneDFG
  rw [List.mem_filter]
  simp only [decide_eq_true_eq, mem_sortDFG, mem_indexsOf_sortDFG]

theorem leTarget_trans (a b c : DataflowEdge) :
    leTarget a b → leTarget b c → leTarget a c := by
  simp only [leTarget, decide_eq_true_eq]
  omega

theorem leTarget_total (a b : DataflowEdge) : leTarget a b || leTarget b a := by
  simp only [leTarget, Bool.or_eq_true, decide_eq_true_eq]
  omega

theorem sortDFG_pairwise (DFG : List DataflowEdge) :
    (sortDFG DFG).Pairwise (fun a b => leTarget a b) :=
  List.sorted_mergeSort leTarget_trans leTarget_total DFG

/-- Stability of the sorting step: for each target value, the sorted list
restricted to that target is the input list restricted to that target, in
the original emission order. -/
theorem sortDFG_filter_key (DFG : List DataflowEdge) (t : Nat) :
    (sortDFG DFG).filter (fun d => decide (d.target_index = t))
      = DFG.filter (fun d => decide (d.target_index = t)) := by
  have hkey : ∀ d ∈ DFG.filter (fun d => decide (d.target_index = t)),
      d.target_index = t := by
    intro d hd
    simpa using List.of_mem_filter hd
  have hpair : (DFG.filter (fun d => decide (d.target_index = t))).Pairwise
      (fun a b => leTarget a b) := by
    refine List.pairwise_of_forall_mem_list ?_
    intro a ha b hb
    simp only [leTarget, decide_eq_true_eq, hkey a ha, hkey b hb, le_refl]
  have hsub : List.Sublist (DFG.filter (fun d => decide (d.target_index = t)))
      (sortDFG DFG) :=
    List.sublist_mergeSort leTarget_trans leTarget_total hpair (List.filter_sublist DFG)
  have hself : (DFG.filter (fun d => decide (d.target_index = t))).filter
      (fun d => decide (d.target_index = t))
      = DFG.filter (fun d => decide (d.target_index = t)) := by
    apply List.filter_eq_self.mpr
    intro a ha
    have h2 := List.of_mem_filter ha
    exact h2
  have hsub2 : List.Sublist (DFG.filter (fun d => decide (d.target_index = t)))
      ((sortDFG DFG).filter (fun d => decide (d.target_index = t))) := by
    have := hsub.filter (fun d => decide (d.target_index = t))
    rwa [hself] at this
  have hperm : ((sortDFG DFG).filter (fun d => decide (d.target_index = t))).Perm
      (DFG.filter (fun d => decide (d.target_index = t))) :=
    (sortDFG_perm DFG).filter _
  exact (hsub2.eq_of_length hperm.length_eq.symm).symm

/-- Claim C3: the Pruner stably sorts the raw edges by target index
ascending (edges with equal target keep their emission order), then keeps
exactly the sorted edges whose target index appears either as the target
of an edge with non-empty sources or inside some source list of some edge. -/
theorem pruner_sorts_stably_and_filters (DFG : List DataflowEdge) :
    (sortDFG DFG).Pairwise (fun a b => a.target_index ≤ b.target_index)
    ∧ (∀ t, (sortDFG DFG).filter (fun d => decide (d.target_index = t))
        = DFG.filter (fun d => decide (d.target_index = t)))
    ∧ pruneDFG DFG = (sortDFG DFG).filter (fun d =>
        decide ((∃ e ∈ DFG, e.source_indices ≠ [] ∧ e.target_index = d.target_index)
          ∨ ∃ e ∈ DFG, d.target_index ∈ e.source_indices)) := by
  refine ⟨?_, sortDFG_filter_key DFG, ?_⟩
  · exact (sortDFG_pairwise DFG).imp (fun h => by
      simpa only [leTarget, decide_eq_true_eq] using h)
  · show (sortDFG DFG).filter
        (fun d => decide (d.target_index ∈ indexsOf (sortDFG DFG))) = _
    refine List.filter_congr ?_
    intro d _
    have hiff : d.target_index ∈ indexsOf (sortDFG DFG) ↔
        (∃ e ∈ DFG, e.source_indices ≠ [] ∧ e.target_index = d.target_index)
          ∨ ∃ e ∈ DFG, d.target_index ∈ e.source_indices := by
      rw [mem_indexsOf_sortDFG, mem_indexsOf]
      constructor
      · rintro ⟨e, he, ⟨hne, ht⟩ | hin⟩
        · exact Or.inl ⟨e, he, hne, ht⟩
        · exact Or.inr ⟨e, he, hin⟩
      · rintro (⟨e, he, hne, ht⟩ | ⟨e, he, hin⟩)
        · exact ⟨e, he, Or.inl ⟨hne, ht⟩⟩
        · exact ⟨e, he, Or.inr hin⟩
    exact decide_eq_decide.mpr hiff

/-- Claim C5: the pruning step is idempotent; a second pass over its own
output removes nothing and changes no order. -/
theorem pruneDFG_idempotent (DFG : List DataflowEdge) :
    pruneDFG (pruneDFG DFG) = pruneDFG DFG := by
  have hpair : (pruneDFG DFG).Pairwise (fun a b => leTarget a b) :=
    List.Pairwise.sublist (List.filter_sublist _) (sortDFG_pairwise DFG)
  have hsorted : sortDFG (pruneDFG DFG) = pruneDFG DFG :=
    List.mergeSort_of_sorted hpair
  have hmem : ∀ e ∈ pruneDFG DFG, e.target_index ∈ indexsOf (pruneDFG DFG) := by
    intro e he
    obtain ⟨-, hidx⟩ := (mem_pruneDFG DFG e).1 he
    obtain ⟨d, hd, hp⟩ := (mem_indexsOf DFG e.target_index).1 hidx
    have hdne : d.source_indices ≠ [] := by
      rcases hp with ⟨hne, -⟩ | hin
      · exact hne
      · intro hnil
        rw [hnil] at hin
        simp at hin
    have hdmem : d ∈ pruneDFG DFG :=
      (mem_pruneDFG DFG d).2
        ⟨hd, (mem_indexsOf DFG d.target_index).2 ⟨d, hd, Or.inl ⟨hdne, rfl⟩⟩⟩
    exact (mem_indexsOf (pruneDFG DFG) e.target_index).2 ⟨d, hdmem, hp⟩
  show (sortDFG (pruneDFG DFG)).filter
      (fun d => decide (d.target_index ∈ indexsOf (sortDFG (pruneDFG DFG)))) = _
  rw [hsorted]
  exact List.filter_eq_self.mpr (fun e he => decide_eq_true (hmem e he))

/-- Claim C4 counterexample: in `dfgC4` the empty-source edge on target 5
survives pruning even though no source list of any edge references 5; it
survives only because the other edge with the same target index has
non-empty sources.  So an isolated empty-source edge is not always
dropped. -/
theorem isolated_empty_source_edge_survives :
    (⟨"x", 5, "comesFrom", [], []⟩ : DataflowEdge) ∈ pruneDFG dfgC4
    ∧ (⟨"x", 5, "comesFrom", [], []⟩ : DataflowEdge).source_indices = []
    ∧ (∀ e ∈ pruneDFG dfgC4, 5 ∉ e.source_indices) := by
  have hsort : sortDFG dfgC4 = dfgC4 := by
    show dfgC4.mergeSort leTarget = dfgC4
    exact List.mergeSort_of_sorted (by decide)
  have hprune : pruneDFG dfgC4
      = dfgC4.filter (fun d => decide (d.target_index ∈ indexsOf dfgC4)) := by
    show (sortDFG dfgC4).filter
        (fun d => decide (d.target_index ∈ indexsOf (sortDFG dfgC4))) = _
    rw [hsort]
  rw [hprune]
  decide

/-- Claim C4 (amended): every edge with non-empty sources survives
pruning, and an edge with empty sources survives exactly when its target
index is referenced inside some source list of some edge (all such referencing
edges themselves survive) or some edge with the same target index has a
non-empty source list. -/
theorem empty_source_edge_survival_iff (DFG : List DataflowEdge)
    (d : DataflowEdge) (hd : d ∈ DFG) (_hs : d.source_indices = []) :
    (∀ e ∈ DFG, e.source_indices ≠ [] → e ∈ pruneDFG DFG)
    ∧ (d ∈ pruneDFG DFG ↔
        (∃ e ∈ DFG, d.target_index ∈ e.source_indices)
        ∨ ∃ e ∈ DFG, e.source_indices ≠ [] ∧ e.target_index = d.target_index) := by
  constructor
  · intro e he hne
    exact (mem_pruneDFG DFG e).2
      ⟨he, (mem_indexsOf DFG e.target_index).2 ⟨e, he, Or.inl ⟨hne, rfl⟩⟩⟩
  · rw [mem_pruneDFG, mem_indexsOf]
    constructor
    · rintro ⟨-, e, he, ⟨hne, ht⟩ | hin⟩
      · exact Or.inr ⟨e, he, hne, ht⟩
      · exact Or.inl ⟨e, he, hin⟩
    · rintro (⟨e, he, hin⟩ | ⟨e, he, hne, ht⟩)
      · exact ⟨hd, e, he, Or.inr hin⟩
      · exact ⟨hd, e, he, Or.inl ⟨hne, ht⟩⟩

/-- Witness for the amended claim C4, at the concrete edge list `dfgW`
whose empty-source edge for `x` at index 5 is referenced by the edge for
`y` at index 7. -/
theorem empty_source_edge_survival_iff_witness :
    ((⟨"x", 5, "comesFrom", [], []⟩ : DataflowEdge) ∈ dfgW
      ∧ (⟨"x", 5, "comesFrom", [], []⟩ : DataflowEdge).source_indices = [])
    ∧ ((∀ e ∈ dfgW, e.source_indices ≠ [] → e ∈ pruneDFG dfgW)
      ∧ ((⟨"x", 5, "comesFrom", [], []⟩ : DataflowEdge) ∈ pruneDFG dfgW ↔
          (∃ e ∈ dfgW,
            (⟨"x", 5, "comesFrom", [], []⟩ : DataflowEdge).target_index ∈ e.source_indices)
          ∨ ∃ e ∈ dfgW, e.source_indices ≠ []
            ∧ e.target_index =
              (⟨"x", 5, "comesFrom", [], []⟩ : DataflowEdge).target_index)) :=
  ⟨⟨by decide, rfl⟩,
    empty_source_edge_survival_iff dfgW ⟨"x", 5, "comesFrom", [], []⟩ (by decide) rfl⟩

/-- Claim C1: when the parse/token-extraction step raises, the outer
`except` clause only sets `dfg = []`; the local `code_tokens` was never
assigned, so the trailing `return code_tokens, dfg` raises
`UnboundLocalError` instead of returning an empty token list and empty
graph.  Evaluated here at a concrete failing input. -/
theorem extract_dataflow_parse_failure_raises :
    extract_dataflow (fun _ => none) (fun _ => none) (fun _ => none)
      "python" "def f(:" = Except.error PyError.unboundLocal := rfl

theorem pruneDFG_nil : pruneDFG [] = [] := by
  have h : sortDFG [] = [] := by
    show List.mergeSort [] leTarget = []
    exact List.mergeSort_nil
  show (sortDFG []).filter
      (fun d => decide (d.target_index ∈ indexsOf (sortDFG []))) = []
  rw [h]
  rfl

/-- Claim C7: for language tag `php`, the source is wrapped in
`<?php ... ?>` markers unconditionally — also when comment stripping
failed and the original text was kept — and the returned code tokens are
computed from that wrapped text. -/
theorem extract_dataflow_php_wraps (strip : String → Option String)
    (tokenize : String → Option (List String))
    (dfg_of : String → Option (List DataflowEdge))
    (code : String) (toks : List String) (dfg : List DataflowEdge)
    (h : extract_dataflow strip tokenize dfg_of "php" code
      = Except.ok (toks, dfg)) :
    preprocess strip "php" code = "<?php" ++ (strip code).getD code ++ "?>"
    ∧ tokenize ("<?php" ++ (strip code).getD code ++ "?>") = some toks := by
  have hpre : preprocess strip "php" code
      = "<?php" ++ (strip code).getD code ++ "?>" := by
    unfold preprocess
    cases strip code <;> simp
  refine ⟨hpre, ?_⟩
  simp only [extract_dataflow] at h
  rw [hpre] at h
  cases htok : tokenize ("<?php" ++ (strip code).getD code ++ "?>") with
  | none =>
    rw [htok] at h
    simp at h
  | some ts =>
    rw [htok] at h
    simp only [Except.ok.injEq, Prod.mk.injEq] at h
    rw [h.1]

/-- Witness for claim C7 at a concrete failing stripper and concrete
tokenizer. -/
theorem extract_dataflow_php_wraps_witness :
    extract_dataflow (fun _ => none) (fun s => some [s]) (fun _ => none)
      "php" "$x = 1;" = Except.ok (["<?php$x = 1;?>"], [])
    ∧ (preprocess (fun _ => none) "php" "$x = 1;"
        = "<?php" ++ (((fun (_ : String) => (none : Option String)) "$x = 1;").getD "$x = 1;") ++ "?>"
      ∧ (fun s => some [s]) ("<?php" ++ (((fun (_ : String) => (none : Option String)) "$x = 1;").getD "$x = 1;") ++ "?>")
        = some ["<?php$x = 1;?>"]) := by
  have hw : extract_dataflow (fun _ => none) (fun s => some [s]) (fun _ => none)
      "php" "$x = 1;" = Except.ok (["<?php$x = 1;?>"], []) := by
    simp [extract_dataflow, preprocess, pruneDFG_nil]
    rfl
  exact ⟨hw, extract_dataflow_php_wraps (fun _ => none) (fun s => some [s])
    (fun _ => none) "$x = 1;" ["<?php$x = 1;?>"] [] hw⟩

/-- Claim C8: a failure of the comment/docstring stripping step is never
fatal; the pipeline behaves exactly as if stripping returned the source
unchanged. -/
theorem extract_dataflow_strip_failure_keeps_original
    (strip : String → Option String)
    (tokenize : String → Option (List String))
    (dfg_of : String → Option (List DataflowEdge))
    (lang code : String) (h : strip code = none) :
    extract_dataflow strip tokenize dfg_of lang code
      = extract_dataflow (fun s => some s) tokenize dfg_of lang code := by
  unfold extract_dataflow preprocess
  rw [h]

/-- Witness for claim C8 at a concrete always-failing stripper. -/
theorem extract_dataflow_strip_failure_keeps_original_witness :
    ((fun (_ : String) => (none : Option String)) "x = 1") = none
    ∧ extract_dataflow (fun _ => none) (fun s => some [s]) (fun _ => none)
        "go" "x = 1"
      = extract_dataflow (fun s => some s) (fun s => some [s]) (fun _ => none)
        "go" "x = 1" :=
  ⟨rfl, extract_dataflow_strip_failure_keeps_original (fun _ => none)
    (fun s => some [s]) (fun _ => none) "go" "x = 1" rfl⟩

/-- Claim C9: when parsing and token extraction succeed but the
per-language dataflow analysis raises, the inner `except` yields
`DFG = []`, and the function returns the full token sequence together
with an empty graph. -/
theorem extract_dataflow_analysis_failure_empty_graph
    (strip : String → Option String)
    (tokenize : String → Option (List String))
    (dfg_of : String → Option (List DataflowEdge))
    (lang code : String) (toks : List String)
    (htok : tokenize (preprocess strip lang code) = some toks)
    (hdfg : dfg_of (preprocess strip lang code) = none) :
    extract_dataflow strip tokenize dfg_of lang code = Except.ok (toks, []) := by
  simp [extract_dataflow, htok, hdfg, pruneDFG_nil]

/-- Witness for claim C9 at a concrete analysis function that always
raises. -/
theorem extract_dataflow_analysis_failure_empty_graph_witness :
    ((fun s => some [s]) (preprocess (fun s => some s) "java" "int x;")
      = some ["int x;"])
    ∧ ((fun (_ : String) => (none : Option (List DataflowEdge)))
        (preprocess (fun s => some s) "java" "int x;") = none)
    ∧ extract_dataflow (fun s => some s) (fun s => some [s]) (fun _ => none)
        "java" "int x;" = Except.ok (["int x;"], []) :=
  ⟨rfl, rfl, extract_dataflow_analysis_failure_empty_graph (fun s => some s)
    (fun s => some [s]) (fun _ => none) "java" "int x;" ["int x;"] rfl rfl⟩

/-- Claim C2 counterexample: with `code_length = nl_length = 0` (an
admissible `--code_length` value), the produced Example has two-element
id sequences, not zero-element ones: Python `l[:-2]` drops from the end
and the negative padding count contributes nothing, so the sentinels
always remain. -/
theorem convert_fixed_length_counterexample :
    (convert_examples_to_features extract0 tokenizer0 0 0 js0).map
      (fun ex => ((ex.code_ids.length : Int), (ex.nl_ids.length : Int)))
      = Except.ok (2, 2)
    ∧ (2 : Int) ≠ 0 :=
  ⟨rfl, by decide⟩

/-- Claim C2 (amended): for every configuration with `code_length ≥ 2`
and `nl_length ≥ 2`, every produced Example satisfies
`len(code_ids) = code_length` and `len(nl_ids) = nl_length`: the subword
sequence is truncated to length − 2, wrapped with the sentinel tokens and
right-padded with the pad id to exactly the configured length. -/
theorem convert_fixed_length
    (extract : String → Except PyError (List String × List DataflowEdge))
    (tokenizer : Tokenizer) (code_length nl_length : Int) (js : Record)
    (ex : InputFeatures)
    (hc : 2 ≤ code_length) (hn : 2 ≤ nl_length)
    (h : convert_examples_to_features extract tokenizer code_length nl_length js
      = Except.ok ex) :
    (ex.code_ids.length : Int) = code_length
    ∧ (ex.nl_ids.length : Int) = nl_length := by
  cases hx : extract js.original_string with
  | error e => simp [convert_examples_to_features, hx] at h
  | ok p =>
    obtain ⟨toks, dfg⟩ := p
    simp only [convert_examples_to_features, hx, Except.ok.injEq] at h
    subst h
    have hc2 : (0 : Int) ≤ code_length - 2 := by omega
    have hn2 : (0 : Int) ≤ nl_length - 2 := by omega
    constructor
    · simp only [pyTake, if_pos hc2, List.length_append, List.length_map,
        List.length_take, List.length_replicate, List.length_cons,
        List.length_nil]
      omega
    · simp only [pyTake, if_pos hn2, List.length_append, List.length_map,
        List.length_take, List.length_replicate, List.length_cons,
        List.length_nil]
      omega

/-- Witness for the amended claim C2 at a concrete configuration of
length 4 on both sides. -/
theorem convert_fixed_length_witness :
    ((2 : Int) ≤ 4 ∧ (2 : Int) ≤ 4
      ∧ convert_examples_to_features extract0 tokenizer0 4 4 js0
        = Except.ok ⟨["<s>", "</s>"], [0, 0, 1, 1], ["<s>", "</s>"],
            [0, 0, 1, 1], "u", none, none⟩)
    ∧ (((⟨["<s>", "</s>"], [0, 0, 1, 1], ["<s>", "</s>"], [0, 0, 1, 1],
          "u", none, none⟩ : InputFeatures).code_ids.length : Int) = 4
      ∧ ((⟨["<s>", "</s>"], [0, 0, 1, 1], ["<s>", "</s>"], [0, 0, 1, 1],
          "u", none, none⟩ : InputFeatures).nl_ids.length : Int) = 4) :=
  ⟨⟨by decide, by decide, rfl⟩,
    convert_fixed_length extract0 tokenizer0 4 4 js0
      ⟨["<s>", "</s>"], [0, 0, 1, 1], ["<s>", "</s>"], [0, 0, 1, 1],
        "u", none, none⟩ (by decide) (by decide) rfl⟩

/-- Claim C6: the returned Example is a function of the extracted token
list, the record, the tokenizer and the two lengths only; the pruned
dataflow edge list returned alongside the tokens is never read. -/
theorem convert_ignores_dfg
    (e1 e2 : String → Except PyError (List String × List DataflowEdge))
    (tokenizer : Tokenizer) (code_length nl_length : Int) (js : Record)
    (toks : List String) (d1 d2 : List DataflowEdge)
    (h1 : e1 js.original_string = Except.ok (toks, d1))
    (h2 : e2 js.original_string = Except.ok (toks, d2)) :
    convert_examples_to_features e1 tokenizer code_length nl_length js
      = convert_examples_to_features e2 tokenizer code_length nl_length js := by
  simp only [convert_examples_to_features, h1, h2]

/-- Witness for claim C6 at two concrete extraction functions agreeing on
tokens and disagreeing on the edge list. -/
theorem convert_ignores_dfg_witness :
    (extractA js0.original_string = Except.ok ([""], []))
    ∧ (extractB js0.original_string
        = Except.ok ([""], [⟨"x", 5, "comesFrom", ["y"], [3]⟩]))
    ∧ convert_examples_to_features extractA tokenizer0 4 4 js0
      = convert_examples_to_features extractB tokenizer0 4 4 js0 :=
  ⟨rfl, rfl, convert_ignores_dfg extractA extractB tokenizer0 4 4 js0
    [""] [] [⟨"x", 5, "comesFrom", ["y"], [3]⟩] rfl rfl⟩

/-- Claim C10: mutual noninterference of the two output sides.  Records
agreeing on `original_string` yield identical `code_tokens`/`code_ids`
regardless of their `docstring_tokens`, and records agreeing on
`docstring_tokens` yield identical `nl_tokens`/`nl_ids` regardless of
their `original_string`. -/
theorem convert_noninterference
    (extract : String → Except PyError (List String × List DataflowEdge))
    (tokenizer : Tokenizer) (code_length nl_length : Int)
    (r1 r2 : Record) (ex1 ex2 : InputFeatures)
    (h1 : convert_examples_to_features extract tokenizer code_length nl_length r1
      = Except.ok ex1)
    (h2 : convert_examples_to_features extract tokenizer code_length nl_length r2
      = Except.ok ex2) :
    (r1.original_string = r2.original_string →
      ex1.code_tokens = ex2.code_tokens ∧ ex1.code_ids = ex2.code_ids)
    ∧ (r1.docstring_tokens = r2.docstring_tokens →
      ex1.nl_tokens = ex2.nl_tokens ∧ ex1.nl_ids = ex2.nl_ids) := by
  cases hx1 : extract r1.original_string with
  | error e => simp [convert_examples_to_features, hx1] at h1
  | ok p1 =>
    cases hx2 : extract r2.original_string with
    | error e => simp [convert_examples_to_features, hx2] at h2
    | ok p2 =>
      obtain ⟨t1, d1⟩ := p1
      obtain ⟨t2, d2⟩ := p2
      simp only [convert_examples_to_features, hx1, Except.ok.injEq] at h1
      simp only [convert_examples_to_features, hx2, Except.ok.injEq] at h2
      subst h1
      subst h2
      constructor
      · intro heq
        rw [heq] at hx1
        have ht : t1 = t2 := by
          have h3 := hx1.symm.trans hx2
          simp only [Except.ok.injEq, Prod.mk.injEq] at h3
          exact h3.1
        subst ht
        exact ⟨rfl, rfl⟩
      · intro heq
        rw [heq]
        exact ⟨rfl, rfl⟩

/-- Witness for claim C10 at two concrete records sharing the source
string but not the docstring. -/
theorem convert_noninterference_witness :
    (convert_examples_to_features extractA tokenizer0 4 4 recA
      = Except.ok ⟨["<s>", "</s>"], [0, 0, 1, 1], ["<s>", "</s>"],
          [0, 0, 1, 1], "u1", none, none⟩)
    ∧ (convert_examples_to_features extractA tokenizer0 4 4 recB
      = Except.ok ⟨["<s>", "</s>"], [0, 0, 1, 1], ["<s>", "</s>"],
          [0, 0, 1, 1], "u2", none, none⟩)
    ∧ ((recA.original_string = recB.original_string →
        (⟨["<s>", "</s>"], [0, 0, 1, 1], ["<s>", "</s>"], [0, 0, 1, 1],
          "u1", none, none⟩ : InputFeatures).code_tokens
          = (⟨["<s>", "</s>"], [0, 0, 1, 1], ["<s>", "</s>"], [0, 0, 1, 1],
            "u2", none, none⟩ : InputFeatures).code_tokens
        ∧ (⟨["<s>", "</s>"], [0, 0, 1, 1], ["<s>", "</s>"], [0, 0, 1, 1],
          "u1", none, none⟩ : InputFeatures).code_ids
          = (⟨["<s>", "</s>"], [0, 0, 1, 1], ["<s>", "</s>"], [0, 0, 1, 1],
            "u2", none, none⟩ : InputFeatures).code_ids)
      ∧ (recA.docstring_tokens = recB.docstring_tokens →
        (⟨["<s>", "</s>"], [0, 0, 1, 1], ["<s>", "</s>"], [0, 0, 1, 1],
          "u1", none, none⟩ : InputFeatures).nl_tokens
          = (⟨["<s>", "</s>"], [0, 0, 1, 1], ["<s>", "</s>"], [0, 0, 1, 1],
            "u2", none, none⟩ : InputFeatures).nl_tokens
        ∧ (⟨["<s>", "</s>"], [0, 0, 1, 1], ["<s>", "</s>"], [0, 0, 1, 1],
          "u1", none, none⟩ : InputFeatures).nl_ids
          = (⟨["<s>", "</s>"], [0, 0, 1, 1], ["<s>", "</s>"], [0, 0, 1, 1],
            "u2", none, none⟩ : InputFeatures).nl_ids)) :=
  ⟨rfl, rfl, convert_noninterference extractA tokenizer0 4 4 recA recB
    ⟨["<s>", "</s>"], [0, 0, 1, 1], ["<s>", "</s>"], [0, 0, 1, 1],
      "u1", none, none⟩
    ⟨["<s>", "</s>"], [0, 0, 1, 1], ["<s>", "</s>"], [0, 0, 1, 1],
      "u2", none, none⟩ rfl rfl⟩
